import Mathlib

/-!
Verification of the metrics-and-recommendation engine of the Amazon-ads
audit dashboard (repository `dash-app`).

The repository consists of near-duplicate variants of one pandas pipeline:
`dash_audit.py`, `amazon_ads_audit.py`, `Back_up_Final.py` and
`amazon_ads_audit_Server.py`.  The definitions below are shallow embeddings
of the source functions:

* numeric column values are rationals (`ℚ`); pandas float division, which
  can produce `inf`/`-inf`/`NaN` on zero denominators, is modelled by the
  `PFloat` type together with `pandasDiv`, `PFloat.fillna0` (the
  `.fillna(0)` method, which replaces only `NaN`) and rounding;
* dataframe rows are structures (`CampRow`, `KwRow`, `STRow`); a dataframe
  is a list of rows;
* the Dash callback `update_output` of `amazon_ads_audit_Server.py`
  (its filtering portion) is the function `updateOutput` on `Triple`;
* for the missing-column behaviour the untyped row model `Row`
  (association list of column name to `PVal`) mirrors pandas column
  lookup, with `Except` capturing a raised `KeyError`.
-/

/-- Result of a pandas float computation: a finite rational, one of the two
infinities, or `NaN`. -/
inductive PFloat where
  | fin (q : ℚ)
  | pinf
  | ninf
  | nan
deriving DecidableEq

/-- Pandas / IEEE division of two finite column values: a zero denominator
yields `inf`, `-inf` or `NaN` according to the sign of the numerator. -/
def pandasDiv (a b : ℚ) : PFloat :=
  if b = 0 then (if 0 < a then .pinf else if a < 0 then .ninf else .nan)
  else .fin (a / b)

/-- The pandas `Series.fillna(0)` method: replaces `NaN` (and only `NaN`,
not the infinities) by `0`. -/
def PFloat.fillna0 : PFloat → PFloat
  | .nan => .fin 0
  | x => x

/-- Whether a pandas float value is finite (neither infinite nor `NaN`). -/
def PFloat.isFin : PFloat → Bool
  | .fin _ => true
  | _ => false

/-- The pandas `Series.replace(0, 1)` policy applied to a denominator
value: `0` is replaced by `1`, all other values are kept. -/
def pyReplace01 (x : ℚ) : ℚ := if x = 0 then 1 else x

/-- Round a rational to the nearest integer, ties to even: the rounding
used by pandas `.round` (IEEE round-half-even) on exactly representable
values. -/
def roundHalfEven (q : ℚ) : ℤ :=
  let f := ⌊q⌋
  let r := q - f
  if r < 1 / 2 then f
  else if 1 / 2 < r then f + 1
  else if Even f then f else f + 1

/-- The pandas `.round(2)` method on a finite value. -/
def pdRound2 (q : ℚ) : ℚ := roundHalfEven (q * 100) / 100

/-- Lift the `× 100` percentage scaling followed by `.round(2)` to pandas
floats: infinities and `NaN` are unaffected by either operation. -/
def PFloat.scaleRound2 : PFloat → PFloat
  | .fin q => .fin (pdRound2 (q * 100))
  | x => x

/-- Python `str.strip` whitespace test (space and the common escapes). -/
def pyIsSpace (c : Char) : Bool :=
  c = ' ' ∨ c = '\t' ∨ c = '\n' ∨ c = '\r' ∨ c = '\x0b' ∨ c = '\x0c'

/-- Python `str.strip()`: drop leading and trailing whitespace. -/
def pyStrip (s : String) : String :=
  ⟨((s.data.dropWhile pyIsSpace).reverse.dropWhile pyIsSpace).reverse⟩

/-- Python `str.lower()` (ASCII range, covering the match-type values that
occur in the data). -/
def pyLower (s : String) : String := ⟨s.data.map Char.toLower⟩

/-- A campaign row of the bulk file after metric computation:
`campaign` is the `Campaign` column, `camp1` the
`Campaign Name (Informational only)` column (`Campaign_1` after the rename
in `amazon_ads_audit_Server.py`). -/
structure CampRow where
  campaign : String
  camp1 : String
  spend : ℚ
  sales : ℚ
  clicks : ℚ
deriving DecidableEq

/-- A keyword row of the bulk file: `keyword` is the keyword text
(`Keyword` after the rename), `camp1` the informational campaign name it
was joined on, `action` the label assigned by the Action Classifier. -/
structure KwRow where
  keyword : String
  camp1 : String
  action : String
  clicks : ℚ
  orders : ℚ
  sales : ℚ
  spend : ℚ
  cpc : ℚ
deriving DecidableEq

/-- A search-term row: `campaign` is its `Campaign` column, `keyword` its
`Targeting`/`Keyword` column, `cst` the customer search term, `action` the
label assigned by the Action Classifier. -/
structure STRow where
  campaign : String
  keyword : String
  cst : String
  matchType : String
  action : String
  acos : ℚ
  orders : ℚ
  clicks : ℚ
deriving DecidableEq

/-- The triple (campaigns, keywords, search terms) displayed by the app. -/
structure Triple where
  camps : List CampRow
  kws : List KwRow
  sts : List STRow
deriving DecidableEq

/-- Campaign CTR of `dash_audit.py` line 48:
`(campaigns["Clicks"] / campaigns["Impressions"]).fillna(0)`. -/
def dashCampCTR (clicks imp : ℚ) : PFloat := (pandasDiv clicks imp).fillna0

/-- Campaign CPC of `dash_audit.py` line 49:
`campaigns["Spend"] / campaigns["Clicks"].replace(0, 1)`. -/
def dashCampCPC (spend clicks : ℚ) : PFloat :=
  pandasDiv spend (pyReplace01 clicks)

/-- Campaign ACOS of `dash_audit.py` line 50:
`campaigns["Spend"] / campaigns["Sales"].replace(0, 1)`. -/
def dashCampACOS (spend sales : ℚ) : PFloat :=
  pandasDiv spend (pyReplace01 sales)

/-- Search-term ACOS of `Back_up_Final.py` line 102:
`search_terms["Spend"] / search_terms["7 Day Total Sales "]` — a raw
division with no zero-denominator replacement. -/
def backupSTAcos (spend sales : ℚ) : PFloat := pandasDiv spend sales

/-- Campaign CTR of `amazon_ads_audit_Server.py` line 140:
`((campaigns["Clicks"] / campaigns["Imp"]).fillna(0) * 100).round(2)`. -/
def serverCampCTR (clicks imp : ℚ) : PFloat :=
  (pandasDiv clicks imp).fillna0.scaleRound2

/-- Campaign CPC of `amazon_ads_audit_Server.py` line 141 (identical in
`Back_up_Final.py` line 79):
`(campaigns["Spend"] / campaigns["Clicks"].replace(0, 1) * 100).round(2)`. -/
def serverCampCPC (spend clicks : ℚ) : PFloat :=
  (pandasDiv spend (pyReplace01 clicks)).scaleRound2

/-- Campaign ACOS of `amazon_ads_audit_Server.py` line 142:
`(campaigns["Spend"] / campaigns["Sales"].replace(0, 1) * 100).round(2)`. -/
def serverCampACOS (spend sales : ℚ) : PFloat :=
  (pandasDiv spend (pyReplace01 sales)).scaleRound2

/-- Campaign conversion rate of `amazon_ads_audit_Server.py` line 143:
`((campaigns["Orders"] / campaigns["Clicks"]).fillna(0) * 100).round(2)`. -/
def serverCampCVR (orders clicks : ℚ) : PFloat :=
  (pandasDiv orders clicks).fillna0.scaleRound2

/-- Keyword `Max Bid` (`dash_audit.py` line 53, `amazon_ads_audit.py`
line 84, `amazon_ads_audit_Server.py` lines 147-148):
`(keywords["Sales"] / keywords["Clicks"].replace(0, 1)) * target_acos`. -/
def maxBid (r : KwRow) (targetAcos : ℚ) : ℚ :=
  r.sales / pyReplace01 r.clicks * targetAcos

/-- Keyword action of `dash_audit.py` lines 54-59 (comparison baseline:
raw `Spend`, as in `Back_up_Final.py` lines 86-91). -/
def dashKwAction (r : KwRow) (targetAcos : ℚ) : String :=
  if maxBid r targetAcos > r.spend then "Increase Bid"
  else if maxBid r targetAcos < r.spend then "Reduce Bid"
  else if 4 < r.clicks ∧ r.orders = 0 then "Pause"
  else "Do Nothing"

/-- Keyword action of `amazon_ads_audit.py` lines 85-90 and
`amazon_ads_audit_Server.py` lines 149-154 (comparison baseline: `CPC`). -/
def auditKwAction (r : KwRow) (targetAcos : ℚ) : String :=
  if maxBid r targetAcos > r.cpc then "Increase Bid"
  else if maxBid r targetAcos < r.cpc then "Reduce Bid"
  else if 4 < r.clicks ∧ r.orders = 0 then "Pause"
  else "Do Nothing"

/-- Search-term action of `amazon_ads_audit_Server.py` lines 162-166: the
stored `ACOS` is percentage-scaled, so it is compared against
`target_acos * 100`; `Match Type` is stripped and lowercased before the
comparison with `"exact"`. -/
def serverSTAction (r : STRow) (targetAcos : ℚ) : String :=
  if r.acos < targetAcos * 100 ∧ 2 ≤ r.orders ∧
      pyLower (pyStrip r.matchType) ≠ "exact" then "Graduate"
  else if 3 < r.clicks ∧ r.orders = 0 then "Negate"
  else "Do Nothing"


/-- Lexicographic order on code-point lists, the order Python uses to
compare strings (and hence the order of `sort_values` on a string
column). -/
def charListLe : List Char → List Char → Bool
  | [], _ => true
  | _ :: _, [] => false
  | a :: as, b :: bs =>
    if a.toNat < b.toNat then true
    else if b.toNat < a.toNat then false
    else charListLe as bs

/-- Python string comparison `a <= b` on code points. -/
def strLe (a b : String) : Bool := charListLe a.data b.data

/-- Comparison of two search-term rows by customer-search-term text, the
key of `sort_values(by="CST", ascending=True)`. -/
def stRowLe (a b : STRow) : Prop := strLe a.cst b.cst = true

instance : DecidableRel stRowLe := fun a b =>
  inferInstanceAs (Decidable (strLe a.cst b.cst = true))

/-- The duplicate-search-term query of `amazon_ads_audit_Server.py` lines
369-370: `search_terms[search_terms.duplicated(subset=["CST"], keep=False)]`
keeps exactly the rows whose `CST` value occurs at least twice, and
`sort_values(by="CST", ascending=True)` sorts the result by that text
(the source's quicksort is unstable, so the order among rows of equal
`CST` is unspecified; insertion sort realizes one admissible order). -/
def findDuplicates (l : List STRow) : List STRow :=
  List.insertionSort stRowLe
    (l.filter (fun r => 2 ≤ l.countP (fun s => decide (s.cst = r.cst))))

/-- The button whose click triggered the Dash callback (the value decoded
from `dash.callback_context` in `update_output`); `none` models a trigger
other than the nine filter buttons (file upload or target-ACOS change). -/
inductive Btn where
  | increaseBid
  | reduceBid
  | pause
  | doNothing
  | reset
  | graduate
  | negate
  | doNothingSearch
  | duplicate
deriving DecidableEq

/-- The keyword action label selected by a button, per the first
`ctx.triggered` dispatch of `update_output` (lines 294-303); the reset
button and all non-keyword buttons leave the action filter `None`. -/
def kwActionFilterLabel : Btn → Option String
  | .increaseBid => some "Increase Bid"
  | .reduceBid => some "Reduce Bid"
  | .pause => some "Pause"
  | .doNothing => some "Do Nothing"
  | _ => none

/-- The search-term action label selected by a button, per the second
`ctx.triggered` dispatch of `update_output` (lines 343-354). -/
def stActionFilterLabel : Btn → Option String
  | .graduate => some "Graduate"
  | .negate => some "Negate"
  | .doNothingSearch => some "Do Nothing"
  | _ => none

/-- The filtering portion of `update_output` in
`amazon_ads_audit_Server.py` (lines 288-394), as a pure function of the
metrics triple and the selection state.  The five blocks are applied in
source order: keyword-action filter, search-term dropdown selection,
search-term-action filter, duplicate query, campaign dropdown selection,
keyword dropdown selection.  A dropdown selection is active when its value
list is nonempty (Python truthiness of `selected_…`). -/
def updateOutput (t : Triple) (trigger : Option Btn)
    (selCamps selKws selSts : List String) : Triple :=
  let t1 := match trigger.bind kwActionFilterLabel with
    | some a =>
      let kws := t.kws.filter (fun k => decide (k.action = a))
      let sts := t.sts.filter
        (fun s => decide (s.keyword ∈ kws.map KwRow.keyword))
      let camps := t.camps.filter
        (fun c => decide (c.camp1 ∈ kws.map KwRow.camp1))
      ⟨camps, kws, sts⟩
    | none => t
  let t2 := if selSts ≠ [] then
      let sts := t1.sts.filter (fun s => decide (s.cst ∈ selSts))
      let kws := t1.kws.filter
        (fun k => decide (k.keyword ∈ sts.map STRow.keyword))
      let camps := t1.camps.filter
        (fun c => decide (c.camp1 ∈ kws.map KwRow.camp1))
      ⟨camps, kws, sts⟩
    else t1
  let t3 := match trigger.bind stActionFilterLabel with
    | some a =>
      let sts := t2.sts.filter (fun s => decide (s.action = a))
      let kws := t2.kws.filter
        (fun k => decide (k.keyword ∈ sts.map STRow.keyword))
      let camps := t2.camps.filter
        (fun c => decide (c.camp1 ∈ kws.map KwRow.camp1))
      ⟨camps, kws, sts⟩
    | none => t2
  let t4 := if trigger = some .duplicate then
      let sts := findDuplicates t3.sts
      let kws := t3.kws.filter
        (fun k => decide (k.keyword ∈ sts.map STRow.keyword))
      let camps := t3.camps.filter
        (fun c => decide (c.camp1 ∈ kws.map KwRow.camp1))
      ⟨camps, kws, sts⟩
    else t3
  let t5 := if selCamps ≠ [] then
      ⟨t4.camps.filter (fun c => decide (c.camp1 ∈ selCamps)),
       t4.kws.filter (fun k => decide (k.camp1 ∈ selCamps)),
       t4.sts.filter (fun s => decide (s.campaign ∈ selCamps))⟩
    else t4
  if selKws ≠ [] then
    let kws := t5.kws.filter (fun k => decide (k.keyword ∈ selKws))
    let sts := t5.sts.filter (fun s => decide (s.keyword ∈ selKws))
    let camps := t5.camps.filter
      (fun c => decide (c.camp1 ∈ kws.map KwRow.camp1))
    ⟨camps, kws, sts⟩
  else t5

/-- The referential-consistency invariant of the spec: every keyword's
campaign reference occurs among the campaign identities of the triple, and
every search term's targeting value occurs among its keyword texts. -/
def Consistent (t : Triple) : Prop :=
  (∀ k ∈ t.kws, k.camp1 ∈ t.camps.map CampRow.camp1) ∧
  (∀ s ∈ t.sts, s.keyword ∈ t.kws.map KwRow.keyword)

instance (t : Triple) : Decidable (Consistent t) := by
  unfold Consistent
  infer_instance

/-- Referential integrity of the metrics triple fed into the filter: every
keyword's campaign reference resolves to a campaign row, and every search
term has a keyword row matching both its targeting value and its campaign
(the search term was served under that keyword in that campaign). -/
def RefIntegrity (t : Triple) : Prop :=
  (∀ k ∈ t.kws, k.camp1 ∈ t.camps.map CampRow.camp1) ∧
  (∀ s ∈ t.sts, ∃ k ∈ t.kws, k.keyword = s.keyword ∧ k.camp1 = s.campaign)

instance (t : Triple) : Decidable (RefIntegrity t) := by
  unfold RefIntegrity
  infer_instance

/-- Total spend over a campaign set (`campaigns["Spend"].sum()`). -/
def totalSpend (camps : List CampRow) : ℚ := (camps.map CampRow.spend).sum

/-- Total sales over a campaign set (`campaigns["Sales"].sum()`). -/
def totalSales (camps : List CampRow) : ℚ := (camps.map CampRow.sales).sum

/-- The summary ACOS of `amazon_ads_audit_Server.py` lines 430-434:
`(total_spend / total_sales * 100) if total_sales > 0 else 0`. -/
def averageAcos (camps : List CampRow) : ℚ :=
  if 0 < totalSales camps then totalSpend camps / totalSales camps * 100
  else 0

/-- An untyped pandas cell value: numeric or string. -/
inductive PVal where
  | num (q : ℚ)
  | str (s : String)
deriving DecidableEq

/-- An untyped dataframe row, as an association list from column name to
value; in pandas all rows of a frame share one column set, so one row
faithfully represents column presence. -/
abbrev Row := List (String × PVal)

/-- Column access `row[c]`: `none` models the `KeyError` pandas raises
when the column is absent. -/
def getCol (r : Row) (c : String) : Option PVal :=
  (r.find? (fun p => decide (p.1 = c))).map Prod.snd

/-- The missing-column loop of `calculate_metrics`
(`amazon_ads_audit_Server.py` lines 133-137):
`for col in cols: if col not in df.columns: df[col] = 0`. -/
def ensureCols (cols : List String) (r : Row) : Row :=
  cols.foldl
    (fun acc c => if (getCol acc c).isSome then acc else acc ++ [(c, .num 0)])
    r

/-- The column list `required_columns["search_terms"]` of
`amazon_ads_audit_Server.py` line 130. -/
def stRequiredCols : List String :=
  ["Sales", "Clicks", "Spend", "Orders", "Ad Group Name", "Campaign Name"]

/-- Numeric cell access: absent column is a `KeyError`, a string cell
where a number is consumed is a `TypeError`. -/
def getNum (r : Row) (c : String) : Except String ℚ :=
  match getCol r c with
  | some (.num q) => .ok q
  | some (.str _) => .error ("TypeError: " ++ c)
  | none => .error ("KeyError: " ++ c)

/-- String cell access: absent column is a `KeyError`. -/
def getStr (r : Row) (c : String) : Except String String :=
  match getCol r c with
  | some (.str s) => .ok s
  | some (.num _) => .error ("TypeError: " ++ c)
  | none => .error ("KeyError: " ++ c)

/-- The search-term action lambda of `amazon_ads_audit_Server.py` lines
162-166 over an untyped row, with Python's left-to-right short-circuit
evaluation of the `and` chain, so that a missing column raises exactly
when the evaluation reaches it. -/
def serverSTActionRow (targetAcos : ℚ) (r : Row) : Except String String :=
  match getNum r "ACOS" with
  | .error e => .error e
  | .ok acos =>
    let grad : Except String Bool :=
      if acos < targetAcos * 100 then
        match getNum r "Orders" with
        | .error e => .error e
        | .ok orders =>
          if 2 ≤ orders then
            match getStr r "Match Type" with
            | .error e => .error e
            | .ok mt => .ok (decide (pyLower (pyStrip mt) ≠ "exact"))
          else .ok false
      else .ok false
    match grad with
    | .error e => .error e
    | .ok true => .ok "Graduate"
    | .ok false =>
      match getNum r "Clicks" with
      | .error e => .error e
      | .ok clicks =>
        if 3 < clicks then
          match getNum r "Orders" with
          | .error e => .error e
          | .ok orders =>
            if orders = 0 then .ok "Negate" else .ok "Do Nothing"
        else .ok "Do Nothing"

/-! Helper lemmas. -/

theorem charListLe_total : ∀ a b : List Char,
    charListLe a b = true ∨ charListLe b a = true
  | [], _ => Or.inl rfl
  | _ :: _, [] => Or.inr rfl
  | a :: as, b :: bs => by
    rcases Nat.lt_trichotomy a.toNat b.toNat with h | h | h
    · left
      simp [charListLe, h]
    · have h1 : ¬ a.toNat < b.toNat := by omega
      have h2 : ¬ b.toNat < a.toNat := by omega
      rcases charListLe_total as bs with ih | ih
      · left
        simp [charListLe, h1, h2, ih]
      · right
        simp [charListLe, h1, h2, ih]
    · right
      simp [charListLe, h]

theorem charListLe_trans : ∀ a b c : List Char,
    charListLe a b = true → charListLe b c = true → charListLe a c = true
  | [], _, _, _, _ => rfl
  | _ :: _, [], _, h1, _ => by simp [charListLe] at h1
  | _ :: _, _ :: _, [], _, h2 => by simp [charListLe] at h2
  | a :: as, b :: bs, c :: cs, h1, h2 => by
    simp only [charListLe] at h1 h2 ⊢
    rcases Nat.lt_trichotomy a.toNat b.toNat with hab | hab | hab <;>
      rcases Nat.lt_trichotomy b.toNat c.toNat with hbc | hbc | hbc
    · simp [show a.toNat < c.toNat by omega]
    · simp [show a.toNat < c.toNat by omega]
    · simp [show ¬ b.toNat < c.toNat by omega, hbc] at h2
    · simp [show a.toNat < c.toNat by omega]
    · have h1' : charListLe as bs = true := by
        simpa [show ¬ a.toNat < b.toNat by omega,
          show ¬ b.toNat < a.toNat by omega] using h1
      have h2' : charListLe bs cs = true := by
        simpa [show ¬ b.toNat < c.toNat by omega,
          show ¬ c.toNat < b.toNat by omega] using h2
      simp [show ¬ a.toNat < c.toNat by omega,
        show ¬ c.toNat < a.toNat by omega,
        charListLe_trans as bs cs h1' h2']
    · simp [show ¬ b.toNat < c.toNat by omega, hbc] at h2
    · simp [show ¬ a.toNat < b.toNat by omega, hab] at h1
    · simp [show ¬ a.toNat < b.toNat by omega, hab] at h1
    · simp [show ¬ a.toNat < b.toNat by omega, hab] at h1

instance : IsTotal STRow stRowLe :=
  ⟨fun a b => charListLe_total a.cst.data b.cst.data⟩

instance : IsTrans STRow stRowLe :=
  ⟨fun a b c => charListLe_trans a.cst.data b.cst.data c.cst.data⟩

theorem refIntegrity_consistent (t : Triple) (h : RefIntegrity t) :
    Consistent t := by
  refine ⟨h.1, fun s hs => ?_⟩
  obtain ⟨k, hk, hkey, _⟩ := h.2 s hs
  exact List.mem_map.mpr ⟨k, hk, hkey⟩

theorem camp_side_mem (camps : List CampRow) (kws kws' : List KwRow)
    (hsub : ∀ k ∈ kws', k ∈ kws)
    (h : ∀ k ∈ kws, k.camp1 ∈ camps.map CampRow.camp1) :
    ∀ k ∈ kws', k.camp1 ∈
      (camps.filter
        (fun c => decide (c.camp1 ∈ kws'.map KwRow.camp1))).map
        CampRow.camp1 := by
  intro k hk
  obtain ⟨c, hc, hcamp⟩ := List.mem_map.mp (h k (hsub k hk))
  refine List.mem_map.mpr ⟨c, List.mem_filter.mpr ⟨hc, ?_⟩, hcamp⟩
  simp only [decide_eq_true_eq]
  rw [hcamp]
  exact List.mem_map.mpr ⟨k, hk, rfl⟩

theorem consistent_restrict_kw (t : Triple) (p : KwRow → Bool)
    (h : RefIntegrity t) :
    Consistent
      ⟨t.camps.filter
          (fun c => decide (c.camp1 ∈ (t.kws.filter p).map KwRow.camp1)),
        t.kws.filter p,
        t.sts.filter
          (fun s => decide (s.keyword ∈ (t.kws.filter p).map KwRow.keyword))⟩
    := by
  constructor
  · exact camp_side_mem t.camps t.kws (t.kws.filter p)
      (fun k hk => (List.mem_filter.mp hk).1) h.1
  · intro s hs
    simpa using (List.mem_filter.mp hs).2

theorem consistent_restrict_st (t : Triple) (sts' : List STRow)
    (hsub : ∀ s ∈ sts', s ∈ t.sts) (h : RefIntegrity t) :
    Consistent
      ⟨t.camps.filter
          (fun c => decide (c.camp1 ∈
            (t.kws.filter
              (fun k => decide (k.keyword ∈ sts'.map STRow.keyword))).map
              KwRow.camp1)),
        t.kws.filter
          (fun k => decide (k.keyword ∈ sts'.map STRow.keyword)),
        sts'⟩ := by
  constructor
  · exact camp_side_mem t.camps t.kws _
      (fun k hk => (List.mem_filter.mp hk).1) h.1
  · intro s hs
    obtain ⟨k, hk, hkey, _⟩ := h.2 s (hsub s hs)
    refine List.mem_map.mpr ⟨k, List.mem_filter.mpr ⟨hk, ?_⟩, hkey⟩
    simp only [decide_eq_true_eq]
    rw [hkey]
    exact List.mem_map.mpr ⟨s, hs, rfl⟩

theorem consistent_select_camp (t : Triple) (sel : List String)
    (h : RefIntegrity t) :
    Consistent
      ⟨t.camps.filter (fun c => decide (c.camp1 ∈ sel)),
        t.kws.filter (fun k => decide (k.camp1 ∈ sel)),
        t.sts.filter (fun s => decide (s.campaign ∈ sel))⟩ := by
  constructor
  · intro k hk
    obtain ⟨hk0, hksel⟩ := List.mem_filter.mp hk
    obtain ⟨c, hc, hcamp⟩ := List.mem_map.mp (h.1 k hk0)
    refine List.mem_map.mpr ⟨c, List.mem_filter.mpr ⟨hc, ?_⟩, hcamp⟩
    simp only [decide_eq_true_eq] at hksel ⊢
    rw [hcamp]
    exact hksel
  · intro s hs
    obtain ⟨hs0, hssel⟩ := List.mem_filter.mp hs
    obtain ⟨k, hk, hkey, hkc⟩ := h.2 s hs0
    refine List.mem_map.mpr ⟨k, List.mem_filter.mpr ⟨hk, ?_⟩, hkey⟩
    simp only [decide_eq_true_eq] at hssel ⊢
    rw [hkc]
    exact hssel

theorem consistent_select_kw (t : Triple) (sel : List String)
    (h : RefIntegrity t) :
    Consistent
      ⟨t.camps.filter
          (fun c => decide (c.camp1 ∈
            (t.kws.filter (fun k => decide (k.keyword ∈ sel))).map
              KwRow.camp1)),
        t.kws.filter (fun k => decide (k.keyword ∈ sel)),
        t.sts.filter (fun s => decide (s.keyword ∈ sel))⟩ := by
  constructor
  · exact camp_side_mem t.camps t.kws _
      (fun k hk => (List.mem_filter.mp hk).1) h.1
  · intro s hs
    obtain ⟨hs0, hssel⟩ := List.mem_filter.mp hs
    obtain ⟨k, hk, hkey, _⟩ := h.2 s hs0
    refine List.mem_map.mpr ⟨k, List.mem_filter.mpr ⟨hk, ?_⟩, hkey⟩
    simp only [decide_eq_true_eq] at hssel ⊢
    rw [hkey]
    exact hssel

theorem mem_of_mem_findDuplicates (l : List STRow) :
    ∀ s ∈ findDuplicates l, s ∈ l := by
  intro s hs
  have hmem := (List.perm_insertionSort stRowLe
    (l.filter (fun r => 2 ≤ l.countP (fun x => decide (x.cst = r.cst))))).mem_iff.mp hs
  exact (List.mem_filter.mp hmem).1

theorem pyReplace01_ne_zero (x : ℚ) : pyReplace01 x ≠ 0 := by
  unfold pyReplace01
  split_ifs with h
  · exact one_ne_zero
  · exact h

theorem pandasDiv_replace_fin (a b : ℚ) :
    pandasDiv a (pyReplace01 b) = .fin (a / pyReplace01 b) := by
  unfold pandasDiv
  rw [if_neg (pyReplace01_ne_zero b)]

theorem getCol_append_left (r l : Row) (c : String)
    (h : getCol r c ≠ none) : getCol (r ++ l) c = getCol r c := by
  unfold getCol at h ⊢
  rw [List.find?_append]
  cases hf : List.find? (fun p => decide (p.1 = c)) r with
  | none => rw [hf] at h; simp at h
  | some v => simp [hf]

theorem getCol_append_right (r l : Row) (c : String)
    (h : getCol r c = none) : getCol (r ++ l) c = getCol l c := by
  unfold getCol at h ⊢
  rw [List.find?_append]
  cases hf : List.find? (fun p => decide (p.1 = c)) r with
  | none => simp
  | some v => rw [hf] at h; simp at h

theorem getCol_singleton_self (c : String) (v : PVal) :
    getCol [(c, v)] c = some v := by
  simp [getCol, List.find?]

theorem getCol_singleton_ne (c c' : String) (v : PVal) (h : c' ≠ c) :
    getCol [(c', v)] c = none := by
  simp [getCol, List.find?, h]

theorem ensureCols_cons (c' : String) (cs : List String) (r : Row) :
    ensureCols (c' :: cs) r =
      ensureCols cs
        (if (getCol r c').isSome then r else r ++ [(c', .num 0)]) := rfl

theorem getCol_ensureCols_pres (cols : List String) (r : Row) (c : String)
    (h : getCol r c ≠ none) : getCol (ensureCols cols r) c = getCol r c := by
  induction cols generalizing r with
  | nil => rfl
  | cons c' cs ih =>
    rw [ensureCols_cons]
    by_cases hp : (getCol r c').isSome
    · rw [if_pos hp]
      exact ih r h
    · rw [if_neg hp]
      have happ := getCol_append_left r [(c', PVal.num 0)] c h
      rw [ih _ (by rw [happ]; exact h)]
      exact happ

theorem roundHalfEven_intCast (n : ℤ) : roundHalfEven (n : ℚ) = n := by
  unfold roundHalfEven
  simp [Int.floor_intCast]

theorem pdRound2_intCast (n : ℤ) : pdRound2 (n : ℚ) = (n : ℚ) := by
  unfold pdRound2
  rw [show ((n : ℚ) * 100) = ((n * 100 : ℤ) : ℚ) by push_cast; ring,
    roundHalfEven_intCast]
  push_cast
  ring

/-! Claim theorems. -/

/-- C2 (corrected): the derived CPC and ACOS values computed with the
replace-zero-denominator-with-1 policy are always finite rationals, and the
`fillna(0)`-guarded CTR and conversion rate are finite — and CTR is `0`
when impressions are `0` — provided the row has no clicks without
impressions and no orders without clicks.  (Without those hypotheses
`fillna(0)` does not help: it replaces only `NaN`, and a nonzero numerator
over a zero denominator is `inf`, see the counterexample.) -/
theorem c2_zero_safety (clicks imp spend sales orders : ℚ)
    (h1 : imp = 0 → clicks = 0) (h2 : clicks = 0 → orders = 0) :
    (dashCampCTR clicks imp).isFin = true ∧
    (imp = 0 → dashCampCTR clicks imp = .fin 0) ∧
    dashCampCPC spend clicks = .fin (spend / pyReplace01 clicks) ∧
    dashCampACOS spend sales = .fin (spend / pyReplace01 sales) ∧
    (serverCampCTR clicks imp).isFin = true ∧
    (serverCampCVR orders clicks).isFin = true := by
  have hctr : (dashCampCTR clicks imp).isFin = true ∧
      (imp = 0 → dashCampCTR clicks imp = .fin 0) := by
    by_cases himp : imp = 0
    · have hc := h1 himp
      constructor
      · simp [dashCampCTR, pandasDiv, himp, hc, PFloat.fillna0, PFloat.isFin]
      · intro _
        simp [dashCampCTR, pandasDiv, himp, hc, PFloat.fillna0]
    · constructor
      · simp [dashCampCTR, pandasDiv, himp, PFloat.fillna0, PFloat.isFin]
      · intro h
        exact absurd h himp
  refine ⟨hctr.1, hctr.2, pandasDiv_replace_fin spend clicks,
    pandasDiv_replace_fin spend sales, ?_, ?_⟩
  · by_cases himp : imp = 0
    · have hc := h1 himp
      simp [serverCampCTR, pandasDiv, himp, hc, PFloat.fillna0,
        PFloat.scaleRound2, PFloat.isFin]
    · simp [serverCampCTR, pandasDiv, himp, PFloat.fillna0,
        PFloat.scaleRound2, PFloat.isFin]
  · by_cases hcl : clicks = 0
    · have ho := h2 hcl
      simp [serverCampCVR, pandasDiv, hcl, ho, PFloat.fillna0,
        PFloat.scaleRound2, PFloat.isFin]
    · simp [serverCampCVR, pandasDiv, hcl, PFloat.fillna0,
        PFloat.scaleRound2, PFloat.isFin]

/-- C2 witness: the amended zero-safety theorem applied to a concrete row
(2 clicks, 10 impressions, spend 5, sales 0, 1 order). -/
theorem c2_zero_safety_witness :
    (dashCampCTR 2 10).isFin = true ∧
    ((10 : ℚ) = 0 → dashCampCTR 2 10 = .fin 0) ∧
    dashCampCPC 5 2 = .fin (5 / pyReplace01 2) ∧
    dashCampACOS 5 0 = .fin (5 / pyReplace01 0) ∧
    (serverCampCTR 2 10).isFin = true ∧
    (serverCampCVR 1 2).isFin = true :=
  c2_zero_safety 2 10 5 0 1 (fun h => absurd h (by norm_num))
    (fun h => absurd h (by norm_num))

/-- C2 counterexample: a row with one click and zero impressions makes the
`fillna(0)`-guarded CTR of `dash_audit.py` positive infinity, and a
search-term row with spend 1 and zero sales makes the unguarded ACOS of
`Back_up_Final.py` line 102 positive infinity — the claim asserts both are
always finite, with ACOS's zero denominator replaced by 1. -/
theorem c2_zero_safety_counterexample :
    dashCampCTR 1 0 = .pinf ∧ backupSTAcos 1 0 = .pinf := by decide

/-- C3 (confirmed): a keyword row with clicks = 5, orders = 0 and sales = 0
at target-ACOS ratio 0.30 gets Max Bid 0.00, and whenever the Max-Bid
comparison against the baseline (raw spend in `dash_audit.py` /
`Back_up_Final.py`, CPC in `amazon_ads_audit.py` /
`amazon_ads_audit_Server.py`) is not decisive — the baseline equals the
Max Bid 0 — the clicks > 4 and orders == 0 rule fires and the label is
`Pause`. -/
theorem c3_pause_example (r : KwRow) (h5 : r.clicks = 5) (h0 : r.orders = 0)
    (hs : r.sales = 0) :
    maxBid r (3 / 10) = 0 ∧
    (r.spend = 0 → dashKwAction r (3 / 10) = "Pause") ∧
    (r.cpc = 0 → auditKwAction r (3 / 10) = "Pause") := by
  have hmb : maxBid r (3 / 10) = 0 := by
    simp [maxBid, hs]
  refine ⟨hmb, fun hsp => ?_, fun hcp => ?_⟩
  · unfold dashKwAction
    rw [hmb, hsp]
    norm_num [h5, h0]
  · unfold auditKwAction
    rw [hmb, hcp]
    norm_num [h5, h0]

/-- C3 witness: the concrete keyword row (clicks 5, orders 0, sales 0,
spend 0, CPC 0) evaluates to Max Bid 0 and action `Pause` in both
variants. -/
theorem c3_pause_example_witness :
    maxBid ⟨"k", "A", "", 5, 0, 0, 0, 0⟩ (3 / 10) = 0 ∧
    dashKwAction ⟨"k", "A", "", 5, 0, 0, 0, 0⟩ (3 / 10) = "Pause" ∧
    auditKwAction ⟨"k", "A", "", 5, 0, 0, 0, 0⟩ (3 / 10) = "Pause" := by
  have h := c3_pause_example ⟨"k", "A", "", 5, 0, 0, 0, 0⟩ rfl rfl rfl
  exact ⟨h.1, h.2.1 rfl, h.2.2 rfl⟩

/-- C4 (confirmed): the Server search-term classifier labels a row
`Graduate` exactly when its (percentage-scaled) ACOS is below the target
ACOS, orders are at least 2, and the stripped, lowercased match type is not
"exact"; in particular ACOS 10%, 3 orders, match type "broad" at target 30%
is `Graduate`. -/
theorem c4_graduate_rule :
    (∀ (r : STRow) (t : ℚ),
        serverSTAction r t = "Graduate" ↔
          r.acos < t * 100 ∧ 2 ≤ r.orders ∧
            pyLower (pyStrip r.matchType) ≠ "exact") ∧
    serverSTAction ⟨"c", "k", "q", "broad", "", 10, 3, 0⟩ (30 / 100) =
      "Graduate" := by
  have hmain : ∀ (r : STRow) (t : ℚ),
      serverSTAction r t = "Graduate" ↔
        r.acos < t * 100 ∧ 2 ≤ r.orders ∧
          pyLower (pyStrip r.matchType) ≠ "exact" := by
    intro r t
    unfold serverSTAction
    split_ifs with hg hn
    · simp [hg]
    · constructor
      · intro h
        exact absurd h (by decide)
      · intro h
        exact absurd h hg
    · constructor
      · intro h
        exact absurd h (by decide)
      · intro h
        exact absurd h hg
  exact ⟨hmain, (hmain _ _).mpr ⟨by norm_num, by norm_num, by decide⟩⟩

/-- C5 (code bug in the claim's cited lines): the Server / Back_up campaign
CPC is multiplied by 100 like the percentage fields, so the spec's example
row (spend 50, clicks 20) yields 250.0 instead of the monetary 2.50 the
claim requires; the `dash_audit.py` variant computes the unscaled 2.50. -/
theorem c5_cpc_scaling_bug :
    serverCampCPC 50 20 = .fin 250 ∧ dashCampCPC 50 20 = .fin (5 / 2) := by
  constructor
  · show (pandasDiv 50 (pyReplace01 20)).scaleRound2 = _
    rw [pandasDiv_replace_fin]
    show PFloat.fin (pdRound2 (50 / pyReplace01 20 * 100)) = _
    rw [show (50 / pyReplace01 20 * 100 : ℚ) = ((250 : ℤ) : ℚ) by
      norm_num [pyReplace01], pdRound2_intCast]
    norm_num
  · rw [dashCampCPC, pandasDiv_replace_fin]
    norm_num [pyReplace01]

/-- C6 (confirmed): the summary ACOS of `update_output` is the
spend-weighted aggregate — total spend over total sales times 100 when
total sales are positive, and 0 when total sales are 0; it is not the mean
of the per-campaign ACOS values, as the two-campaign set with per-campaign
ACOS 10 and 100 (mean 55) but weighted aggregate 200/11 shows. -/
theorem c6_weighted_acos (camps : List CampRow) :
    (0 < totalSales camps →
      averageAcos camps = totalSpend camps / totalSales camps * 100) ∧
    (totalSales camps = 0 → averageAcos camps = 0) ∧
    serverCampACOS 10 100 = .fin 10 ∧
    serverCampACOS 10 10 = .fin 100 ∧
    averageAcos [⟨"a", "a", 10, 100, 0⟩, ⟨"b", "b", 10, 10, 0⟩] ≠
      (10 + 100) / 2 := by
  refine ⟨fun h => ?_, fun h => ?_, ?_, ?_, ?_⟩
  · rw [averageAcos, if_pos h]
  · rw [averageAcos, if_neg (by rw [h]; exact lt_irrefl 0)]
  · show (pandasDiv 10 (pyReplace01 100)).scaleRound2 = _
    rw [pandasDiv_replace_fin]
    show PFloat.fin (pdRound2 (10 / pyReplace01 100 * 100)) = _
    rw [show (10 / pyReplace01 100 * 100 : ℚ) = ((10 : ℤ) : ℚ) by
      norm_num [pyReplace01], pdRound2_intCast]
    norm_num
  · show (pandasDiv 10 (pyReplace01 10)).scaleRound2 = _
    rw [pandasDiv_replace_fin]
    show PFloat.fin (pdRound2 (10 / pyReplace01 10 * 100)) = _
    rw [show (10 / pyReplace01 10 * 100 : ℚ) = ((100 : ℤ) : ℚ) by
      norm_num [pyReplace01], pdRound2_intCast]
    norm_num
  · rw [averageAcos]
    norm_num [totalSales, totalSpend]

/-- C6 witness: the weighted-aggregate clause applied to the one-campaign
set with spend 50 and sales 200 (summary ACOS 25%). -/
theorem c6_weighted_acos_witness :
    (0 : ℚ) < totalSales [⟨"a", "a", 50, 200, 0⟩] ∧
    averageAcos [⟨"a", "a", 50, 200, 0⟩] =
      totalSpend [⟨"a", "a", 50, 200, 0⟩] /
        totalSales [⟨"a", "a", 50, 200, 0⟩] * 100 :=
  ⟨by norm_num [totalSales],
    (c6_weighted_acos [⟨"a", "a", 50, 200, 0⟩]).1 (by norm_num [totalSales])⟩

/-- C1 (corrected): when the metrics triple satisfies referential
integrity — every keyword's campaign reference resolves to a campaign row
and every search term has a keyword row matching both its targeting value
and its campaign — then any single Hierarchy Consistency Filter
application (any of the nine buttons alone, or one dropdown selection at
one level alone) produces a triple in which every surviving keyword's
campaign reference is among the surviving campaigns and every surviving
search term's targeting value is among the surviving keywords. -/
theorem c1_single_filter_consistency (t : Triple) (h : RefIntegrity t) :
    (∀ b : Btn, Consistent (updateOutput t (some b) [] [] [])) ∧
    (∀ sel : List String, Consistent (updateOutput t none sel [] [])) ∧
    (∀ sel : List String, Consistent (updateOutput t none [] sel [])) ∧
    (∀ sel : List String, Consistent (updateOutput t none [] [] sel)) := by
  refine ⟨fun b => ?_, fun sel => ?_, fun sel => ?_, fun sel => ?_⟩
  · cases b
    case increaseBid => exact consistent_restrict_kw t _ h
    case reduceBid => exact consistent_restrict_kw t _ h
    case pause => exact consistent_restrict_kw t _ h
    case doNothing => exact consistent_restrict_kw t _ h
    case reset => exact refIntegrity_consistent t h
    case graduate =>
      exact consistent_restrict_st t _ (fun s hs => (List.mem_filter.mp hs).1) h
    case negate =>
      exact consistent_restrict_st t _ (fun s hs => (List.mem_filter.mp hs).1) h
    case doNothingSearch =>
      exact consistent_restrict_st t _ (fun s hs => (List.mem_filter.mp hs).1) h
    case duplicate =>
      exact consistent_restrict_st t _ (mem_of_mem_findDuplicates t.sts) h
  · by_cases hsel : sel = []
    · subst hsel
      exact refIntegrity_consistent t h
    · have heq : updateOutput t none sel [] [] =
          ⟨t.camps.filter (fun c => decide (c.camp1 ∈ sel)),
            t.kws.filter (fun k => decide (k.camp1 ∈ sel)),
            t.sts.filter (fun s => decide (s.campaign ∈ sel))⟩ := by
        simp [updateOutput, hsel]
      rw [heq]
      exact consistent_select_camp t sel h
  · by_cases hsel : sel = []
    · subst hsel
      exact refIntegrity_consistent t h
    · have heq : updateOutput t none [] sel [] =
          ⟨t.camps.filter (fun c => decide (c.camp1 ∈
              (t.kws.filter (fun k => decide (k.keyword ∈ sel))).map
                KwRow.camp1)),
            t.kws.filter (fun k => decide (k.keyword ∈ sel)),
            t.sts.filter (fun s => decide (s.keyword ∈ sel))⟩ := by
        simp [updateOutput, hsel]
      rw [heq]
      exact consistent_select_kw t sel h
  · by_cases hsel : sel = []
    · subst hsel
      exact refIntegrity_consistent t h
    · have heq : updateOutput t none [] [] sel =
          ⟨t.camps.filter (fun c => decide (c.camp1 ∈
              (t.kws.filter (fun k => decide (k.keyword ∈
                (t.sts.filter (fun s => decide (s.cst ∈ sel))).map
                  STRow.keyword))).map KwRow.camp1)),
            t.kws.filter (fun k => decide (k.keyword ∈
              (t.sts.filter (fun s => decide (s.cst ∈ sel))).map
                STRow.keyword)),
            t.sts.filter (fun s => decide (s.cst ∈ sel))⟩ := by
        simp [updateOutput, hsel]
      rw [heq]
      exact consistent_restrict_st t _ (fun s hs => (List.mem_filter.mp hs).1) h

/-- C1 witness: the theorem applied to a referentially intact one-row
triple, with the `Pause` action-filter button as the single filter. -/
theorem c1_single_filter_consistency_witness :
    RefIntegrity ⟨[⟨"A", "A", 0, 0, 0⟩],
      [⟨"k", "A", "Do Nothing", 5, 0, 0, 0, 0⟩],
      [⟨"A", "k", "q", "broad", "Do Nothing", 0, 0, 0⟩]⟩ ∧
    Consistent (updateOutput ⟨[⟨"A", "A", 0, 0, 0⟩],
      [⟨"k", "A", "Do Nothing", 5, 0, 0, 0, 0⟩],
      [⟨"A", "k", "q", "broad", "Do Nothing", 0, 0, 0⟩]⟩
      (some .pause) [] [] []) :=
  ⟨by decide, (c1_single_filter_consistency _ (by decide)).1 .pause⟩

/-- C1 counterexample: a triple that itself satisfies the invariant —
campaigns A and B, one keyword "k" owned by campaign B, one search term in
campaign A targeting "k" — loses it under the explicit campaign selection
["A"]: the search term row survives (its `Campaign` is A) while the
keyword set becomes empty (keyword "k" has `Campaign_1` B), so the
surviving search term's targeting value is not in the filtered keyword
set, contradicting the unconditional claim. -/
theorem c1_consistency_counterexample :
    Consistent ⟨[⟨"A", "A", 0, 0, 0⟩, ⟨"B", "B", 0, 0, 0⟩],
      [⟨"k", "B", "Do Nothing", 0, 0, 0, 0, 0⟩],
      [⟨"A", "k", "q", "broad", "Do Nothing", 0, 0, 0⟩]⟩ ∧
    ¬ Consistent (updateOutput
      ⟨[⟨"A", "A", 0, 0, 0⟩, ⟨"B", "B", 0, 0, 0⟩],
        [⟨"k", "B", "Do Nothing", 0, 0, 0, 0, 0⟩],
        [⟨"A", "k", "q", "broad", "Do Nothing", 0, 0, 0⟩]⟩
      none ["A"] [] []) := by decide

/-- C7 (confirmed): with the duplicate query as the sole active drill mode,
the resulting search-term set contains a row exactly when it is in the
input search-term set and its customer-search-term text occurs at least
twice there, and the result is sorted ascending by that text. -/
theorem c7_duplicate_query (t : Triple) :
    (∀ r, r ∈ (updateOutput t (some .duplicate) [] [] []).sts ↔
        r ∈ t.sts ∧
          2 ≤ t.sts.countP (fun s => decide (s.cst = r.cst))) ∧
    List.Sorted stRowLe (updateOutput t (some .duplicate) [] [] []).sts := by
  constructor
  · intro r
    show r ∈ findDuplicates t.sts ↔ _
    rw [findDuplicates,
      (List.perm_insertionSort stRowLe _).mem_iff]
    simp [List.mem_filter]
  · show List.Sorted stRowLe (findDuplicates t.sts)
    exact List.sorted_insertionSort stRowLe _

/-- C8 (corrected): the Reset button with no dropdown selections pending
reproduces the unfiltered triple exactly. -/
theorem c8_reset_restores (t : Triple) :
    updateOutput t (some .reset) [] [] [] = t := rfl

/-- C8 counterexample: Reset does not clear the persisting dropdown
selections — with campaign "A" still selected in the dropdown, clicking
Reset leaves the triple filtered (campaign B and the keyword owned by B
are gone), so Reset after an arbitrary selection sequence does not
reproduce the unfiltered triple. -/
theorem c8_reset_counterexample :
    updateOutput ⟨[⟨"A", "A", 0, 0, 0⟩, ⟨"B", "B", 0, 0, 0⟩],
      [⟨"k", "B", "Do Nothing", 0, 0, 0, 0, 0⟩],
      [⟨"A", "k", "q", "broad", "Do Nothing", 0, 0, 0⟩]⟩
      (some .reset) ["A"] [] [] ≠
    ⟨[⟨"A", "A", 0, 0, 0⟩, ⟨"B", "B", 0, 0, 0⟩],
      [⟨"k", "B", "Do Nothing", 0, 0, 0, 0, 0⟩],
      [⟨"A", "k", "q", "broad", "Do Nothing", 0, 0, 0⟩]⟩ := by decide

/-- C9 (corrected): every column in the hard-coded required-columns list
that is absent from the input is inserted at normalization time with the
numeric value 0, and lookups of listed columns never fail afterwards; the
guarantee is limited to the listed columns (see the counterexample for
`Match Type`). -/
theorem c9_required_columns (cols : List String) (r : Row) (c : String)
    (hc : c ∈ cols) :
    getCol (ensureCols cols r) c ≠ none ∧
    (getCol r c = none →
      getCol (ensureCols cols r) c = some (.num 0)) := by
  induction cols generalizing r with
  | nil => cases hc
  | cons c' cs ih =>
    rw [ensureCols_cons]
    by_cases hcc : c = c'
    · subst hcc
      by_cases hp : (getCol r c).isSome
      · rw [if_pos hp]
        have hne : getCol r c ≠ none := by
          intro h0
          rw [h0] at hp
          simp at hp
        constructor
        · rw [getCol_ensureCols_pres cs r c hne]
          exact hne
        · intro h0
          exact absurd h0 hne
      · rw [if_neg hp]
        have hnone : getCol r c = none := by
          cases h0 : getCol r c with
          | none => rfl
          | some v => rw [h0] at hp; simp at hp
        have happ : getCol (r ++ [(c, PVal.num 0)]) c = some (.num 0) := by
          rw [getCol_append_right _ _ _ hnone, getCol_singleton_self]
        have hne : getCol (r ++ [(c, PVal.num 0)]) c ≠ none := by
          rw [happ]
          simp
        constructor
        · rw [getCol_ensureCols_pres cs _ c hne]
          exact hne
        · intro _
          rw [getCol_ensureCols_pres cs _ c hne, happ]
    · have hc' : c ∈ cs := by
        cases hc with
        | head => exact absurd rfl hcc
        | tail _ htl => exact htl
      by_cases hp : (getCol r c').isSome
      · rw [if_pos hp]
        exact ih r hc'
      · rw [if_neg hp]
        have hstep : getCol (r ++ [(c', PVal.num 0)]) c = getCol r c := by
          cases h0 : getCol r c with
          | none =>
            rw [getCol_append_right _ _ _ h0,
              getCol_singleton_ne c c' (PVal.num 0) (fun he => hcc he.symm)]
          | some v =>
            rw [getCol_append_left _ _ _ (by rw [h0]; simp)]
            exact h0
        have := ih (r ++ [(c', PVal.num 0)]) hc'
        exact ⟨this.1, fun h0 => this.2 (by rw [hstep]; exact h0)⟩

/-- C9 witness: the missing `Sales` column of a search-term row is
inserted as numeric 0 by the required-columns loop. -/
theorem c9_required_columns_witness :
    "Sales" ∈ stRequiredCols ∧
    getCol (ensureCols stRequiredCols [("Clicks", PVal.num 5)]) "Sales" ≠
      none ∧
    getCol (ensureCols stRequiredCols [("Clicks", PVal.num 5)]) "Sales" =
      some (PVal.num 0) := by
  have h := c9_required_columns stRequiredCols [("Clicks", PVal.num 5)]
    "Sales" (by decide)
  exact ⟨by decide, h.1, h.2 (by decide)⟩

/-- C9 counterexample: `Match Type` is not in the required-columns list,
so on a search-term row without it — ACOS 10 below the target 30, 3
orders — the Server classifier's match-type access raises a `KeyError`
even after the missing-column loop ran, contradicting the claim that no
missing non-discriminator column ever raises. -/
theorem c9_missing_match_type_raises :
    serverSTActionRow (3 / 10)
      (ensureCols stRequiredCols
        [("ACOS", PVal.num 10), ("Orders", PVal.num 3),
         ("Clicks", PVal.num 5), ("Spend", PVal.num 2),
         ("Sales", PVal.num 20)]) =
      .error ("KeyError: " ++ "Match Type") := by
  have hlt : (10 : ℚ) < 3 / 10 * 100 := by norm_num
  have hle : (2 : ℚ) ≤ 3 := by norm_num
  simp [serverSTActionRow, ensureCols, stRequiredCols, getCol, getNum,
    getStr, List.find?, hlt, hle]

/-- C10 (confirmed): in every variant the keyword classifier emits `Pause`
only when the Max Bid exactly equals its comparison baseline (spend in
`dash_audit.py` / `Back_up_Final.py`, CPC in the other two): a strictly
greater Max Bid always yields `Increase Bid` and a strictly smaller one
always yields `Reduce Bid`, regardless of clicks and orders. -/
theorem c10_pause_needs_equality (r : KwRow) (t : ℚ) :
    (maxBid r t > r.spend → dashKwAction r t = "Increase Bid") ∧
    (maxBid r t < r.spend → dashKwAction r t = "Reduce Bid") ∧
    (dashKwAction r t = "Pause" → maxBid r t = r.spend) ∧
    (maxBid r t > r.cpc → auditKwAction r t = "Increase Bid") ∧
    (maxBid r t < r.cpc → auditKwAction r t = "Reduce Bid") ∧
    (auditKwAction r t = "Pause" → maxBid r t = r.cpc) := by
  unfold dashKwAction auditKwAction
  refine ⟨fun h => if_pos h, fun h => ?_, fun h => ?_,
    fun h => if_pos h, fun h => ?_, fun h => ?_⟩
  · rw [if_neg (by exact not_lt.mpr (le_of_lt h)), if_pos h]
  · by_cases h1 : maxBid r t > r.spend
    · rw [if_pos h1] at h
      exact absurd h (by decide)
    · by_cases h2 : maxBid r t < r.spend
      · rw [if_neg h1, if_pos h2] at h
        exact absurd h (by decide)
      · exact le_antisymm (not_lt.mp h1) (not_lt.mp h2)
  · rw [if_neg (by exact not_lt.mpr (le_of_lt h)), if_pos h]
  · by_cases h1 : maxBid r t > r.cpc
    · rw [if_pos h1] at h
      exact absurd h (by decide)
    · by_cases h2 : maxBid r t < r.cpc
      · rw [if_neg h1, if_pos h2] at h
        exact absurd h (by decide)
      · exact le_antisymm (not_lt.mp h1) (not_lt.mp h2)

/-- C10 witness: a keyword row with Max Bid 1 against baseline 1/2 (both
spend and CPC) is labeled `Increase Bid` in both variants even though it
has 5 clicks and 0 orders. -/
theorem c10_pause_needs_equality_witness :
    dashKwAction ⟨"k", "A", "", 5, 0, 10, 1 / 2, 1 / 2⟩ (1 / 2) =
      "Increase Bid" ∧
    auditKwAction ⟨"k", "A", "", 5, 0, 10, 1 / 2, 1 / 2⟩ (1 / 2) =
      "Increase Bid" := by
  have h := c10_pause_needs_equality ⟨"k", "A", "", 5, 0, 10, 1 / 2, 1 / 2⟩
    (1 / 2)
  have hb : maxBid ⟨"k", "A", "", 5, 0, 10, 1 / 2, 1 / 2⟩ (1 / 2) >
      (1 / 2 : ℚ) := by
    norm_num [maxBid, pyReplace01]
  exact ⟨h.1 hb, h.2.2.2.1 hb⟩
